import Mathlib

/-!
Shallow embedding of src/server.js (WLWV Life Calendar API v3.0.0), the
Express + PostgreSQL backend of the wlwv-calendar repository.

Conventions of the embedding:

* Scalar JSON payload values are modelled by `JsVal` (null, undefined, string,
  number); JS truthiness drives the handlers' presence checks (`if (!x)`).
* `new Date(string)` parsing is modelled for the ISO-8601 UTC subset of the JS
  date-time string grammar: `YYYY`, `YYYY-MM`, `YYYY-MM-DD`, and
  `YYYY-MM-DDTHH:MM[:SS[.mmm]]Z` (hours 00-23); other strings are treated as
  unparseable.  `new Date(number)` is milliseconds since the Unix epoch.
* Each table is modelled as a list of rows.  A DATE column holds the canonical
  string the handler bound into the INSERT/UPDATE; reading a row back returns
  the stored values (store round trips are value preserving, i.e. the process
  runs with a UTC clock, the only environment under which the source's
  `toISOString` serialization is well defined).
* `CURRENT_TIMESTAMP` and the SERIAL id sequence are explicit parameters
  (`now`, `newId`) of the handler functions.
* A handler returns an `Outcome` (the JSON response, with its HTTP status)
  together with the table state after the request.
-/

/-- Scalar JSON value as received by the Express handlers. -/
inductive JsVal where
  | null
  | undef
  | str (s : String)
  | num (n : Int)
deriving DecidableEq

/-- JS truthiness of a payload value, as used by checks like `if (!school)`. -/
def JsVal.truthy : JsVal → Bool
  | .null => false
  | .undef => false
  | .str s => !(s == "")
  | .num n => !(n == 0)

/-- Serialization a truthy value receives when bound into a text column by the
pg driver. -/
def JsVal.toStr : JsVal → String
  | .str s => s
  | .num n => toString n
  | .null => ""
  | .undef => ""

/-- Embeds the handler idiom `field || null` used for optional columns. -/
def jsOrNull (v : JsVal) : Option String :=
  if v.truthy then some v.toStr else none

/-- Embeds the handler idiom `field || ''` used for defaulted text columns. -/
def jsOrEmpty (v : JsVal) : String :=
  if v.truthy then v.toStr else ""

/-- Numeric value of a decimal digit character. -/
def digitNat (c : Char) : Option Nat :=
  if 48 ≤ c.toNat ∧ c.toNat ≤ 57 then some (c.toNat - 48) else none

/-- Decimal digit character of a value below 10. -/
def digitChar : Nat → Char
  | 0 => '0'
  | 1 => '1'
  | 2 => '2'
  | 3 => '3'
  | 4 => '4'
  | 5 => '5'
  | 6 => '6'
  | 7 => '7'
  | 8 => '8'
  | _ => '9'

/-- Accumulates the leading decimal digits of a character list; none when no
digit has been seen (the NaN outcome of parseInt). -/
def leadingDigits : List Char → Nat → Bool → Option Nat
  | [], acc, seen => if seen then some acc else none
  | c :: rest, acc, seen =>
    match digitNat c with
    | some d => leadingDigits rest (acc * 10 + d) true
    | none => if seen then some acc else none

/-- Model of `parseInt` as the source applies it to grade_level: skips leading
whitespace, reads an optional sign and then the leading decimal digits;
NaN is none. -/
def parseIntJs : JsVal → Option Int
  | .num n => some n
  | .str s =>
    match s.data.dropWhile (fun c => c == ' ' || c == '\t' || c == '\n' || c == '\r') with
    | '-' :: rest => (leadingDigits rest 0 false).map (fun n => -(n : Int))
    | '+' :: rest => (leadingDigits rest 0 false).map (fun n => (n : Int))
    | cs => (leadingDigits cs 0 false).map (fun n => (n : Int))
  | .null => none
  | .undef => none

/-- A calendar date, the value of a PostgreSQL DATE column. -/
structure Ymd where
  year : Nat
  month : Nat
  day : Nat
deriving DecidableEq

def isLeapYear (y : Nat) : Bool :=
  (y % 4 == 0 && y % 100 != 0) || y % 400 == 0

def daysInMonth (y m : Nat) : Nat :=
  if m == 2 then (if isLeapYear y then 29 else 28)
  else if m == 4 || m == 6 || m == 9 || m == 11 then 30
  else 31

/-- Field validity of a calendar date, as the JS engine checks an ISO date
string before accepting it. -/
def validYmd (y m d : Nat) : Bool :=
  decide (1 ≤ m) && decide (m ≤ 12) && decide (1 ≤ d) && decide (d ≤ daysInMonth y m)

def ymdOf (y m d : Nat) : Option Ymd :=
  if validYmd y m d then some ⟨y, m, d⟩ else none

def parse2 (a b : Char) : Option Nat :=
  match digitNat a, digitNat b with
  | some x, some y => some (x * 10 + y)
  | _, _ => none

def parse4 (a b c d : Char) : Option Nat :=
  match digitNat a, digitNat b, digitNat c, digitNat d with
  | some w, some x, some y, some z => some (((w * 10 + x) * 10 + y) * 10 + z)
  | _, _, _, _ => none

/-- Validity of the optional fractional-second part of an ISO time, up to the
closing UTC designator. -/
def msTail : List Char → Bool
  | ['Z'] => true
  | '.' :: a :: b :: c :: ['Z'] =>
    (digitNat a).isSome && (digitNat b).isSome && (digitNat c).isSome
  | _ => false

/-- Validity of the optional seconds part of an ISO time. -/
def secTail : List Char → Bool
  | ['Z'] => true
  | ':' :: a :: b :: rest =>
    match parse2 a b with
    | some s => decide (s ≤ 59) && msTail rest
    | none => false
  | _ => false

/-- Validity of the time-of-day part following the T separator. -/
def timePart : List Char → Bool
  | h1 :: h2 :: ':' :: n1 :: n2 :: rest =>
    match parse2 h1 h2, parse2 n1 n2 with
    | some h, some n => decide (h ≤ 23) && decide (n ≤ 59) && secTail rest
    | _, _ => false
  | _ => false

/-- Model of `new Date(s)` on a string: the ISO-8601 UTC subset of the JS
date-time string grammar, returning the calendar date (the time of day only
has to be well formed, since `toISOString` keeps the UTC day unchanged for
hours 00-23). -/
def parseDateChars : List Char → Option Ymd
  | [a, b, c, d] => (parse4 a b c d).map (fun y => ⟨y, 1, 1⟩)
  | [a, b, c, d, '-', m1, m2] =>
    match parse4 a b c d, parse2 m1 m2 with
    | some y, some m => ymdOf y m 1
    | _, _ => none
  | [a, b, c, d, '-', m1, m2, '-', e1, e2] =>
    match parse4 a b c d, parse2 m1 m2, parse2 e1 e2 with
    | some y, some m, some dd => ymdOf y m dd
    | _, _, _ => none
  | a :: b :: c :: d :: '-' :: m1 :: m2 :: '-' :: e1 :: e2 :: 'T' :: rest =>
    match parse4 a b c d, parse2 m1 m2, parse2 e1 e2 with
    | some y, some m, some dd => if timePart rest then ymdOf y m dd else none
    | _, _, _ => none
  | _ => none

def pad2 (n : Nat) : List Char := [digitChar (n / 10 % 10), digitChar (n % 10)]

def pad4 (n : Nat) : List Char :=
  [digitChar (n / 1000 % 10), digitChar (n / 100 % 10), digitChar (n / 10 % 10),
    digitChar (n % 10)]

def pad6 (n : Nat) : List Char :=
  digitChar (n / 100000 % 10) :: digitChar (n / 10000 % 10) :: pad4 n

/-- Canonical serialization of a calendar date, the date part of
`toISOString`. -/
def canonYmd (d : Ymd) : String :=
  String.mk (pad4 d.year ++ '-' :: pad2 d.month ++ '-' :: pad2 d.day)

/-- Year field serialization of `toISOString`, with the expanded form for
years outside 0000-9999. -/
def isoYearChars (y : Int) : List Char :=
  if y < 0 then '-' :: pad6 (-y).toNat
  else if y ≤ 9999 then pad4 y.toNat
  else '+' :: pad6 y.toNat

/-- Civil calendar date of a count of days since the Unix epoch (proleptic
Gregorian calendar). -/
def civilFromDays (z0 : Int) : Int × Nat × Nat :=
  let z := z0 + 719468
  let era : Int := Int.fdiv z 146097
  let doe : Nat := (z - era * 146097).toNat
  let yoe : Nat := (doe - doe / 1460 + doe / 36524 - doe / 146096) / 365
  let y : Int := (yoe : Int) + era * 400
  let doy : Nat := doe - (365 * yoe + yoe / 4 - yoe / 100)
  let mp : Nat := (5 * doy + 2) / 153
  let dd : Nat := doy - (153 * mp + 2) / 5 + 1
  let mm : Nat := if mp < 10 then mp + 3 else mp - 9
  (if mm ≤ 2 then y + 1 else y, mm, dd)

/-- Date part of `toISOString` for a millisecond timestamp. -/
def canonMs (n : Int) : String :=
  let c := civilFromDays (Int.fdiv n 86400000)
  String.mk (isoYearChars c.1 ++ '-' :: pad2 c.2.1 ++ '-' :: pad2 c.2.2)

/-- Embedding of `formatDate` (src/server.js lines 62-75) on request payload
values.  Falsy input returns null (the no-date sentinel); a string goes
through `new Date(s)` and fails with the thrown message on an unparseable
input; a number is milliseconds since the epoch, invalid outside the JS date
range. -/
def formatDate (v : JsVal) : Except String (Option String) :=
  if v.truthy then
    match v with
    | .str s =>
      match parseDateChars s.data with
      | some d => .ok (some (canonYmd d))
      | none => .error "Invalid date format"
    | .num n =>
      if n.natAbs ≤ 8640000000000000 then .ok (some (canonMs n))
      else .error "Invalid date format"
    | .null => .ok none
    | .undef => .ok none
  else .ok none

example : formatDate (.str "2024-01-15") = .ok (some "2024-01-15") := rfl
example : formatDate (.str "not-a-date") = .error "Invalid date format" := rfl
example : formatDate (.str "2024-02-30") = .error "Invalid date format" := rfl
example : formatDate (.str "2024-01-15T23:59:59.123Z") = .ok (some "2024-01-15") := rfl
example : formatDate (.str "") = .ok none := rfl
example : formatDate .null = .ok none := rfl
example : formatDate (.num 86400001) = .ok (some "1970-01-02") := rfl

/-- Error JSON response of a handler, with its HTTP status. -/
structure ErrorResponse where
  status : Nat
  error : String
  details : Option String
deriving DecidableEq

/-- Result of a request: a success response with its status and data, or an
error response. -/
inductive Outcome (α : Type) where
  | ok (status : Nat) (data : α)
  | err (e : ErrorResponse)
deriving DecidableEq

/-- Row of the events table (src/server.js lines 204-216). -/
structure EventRow where
  id : Nat
  school : String
  date : String
  title : String
  department : Option String
  time : Option String
  description : String
  created_at : Nat
  updated_at : Nat
deriving DecidableEq

/-- Event record as serialized by GET /api/events (date re-formatted). -/
structure EventOut where
  id : Nat
  school : String
  date : Option String
  title : String
  department : Option String
  time : Option String
  description : String
  created_at : Nat
  updated_at : Nat
deriving DecidableEq

/-- Row of the materials table (src/server.js lines 219-232). -/
structure MaterialRow where
  id : Nat
  school : String
  date : String
  grade_level : Int
  title : String
  link : String
  description : String
  password : Option String
  created_at : Nat
  updated_at : Nat
deriving DecidableEq

/-- Material record as serialized by GET /api/materials. -/
structure MaterialOut where
  id : Nat
  school : String
  date : Option String
  grade_level : Int
  title : String
  link : String
  description : String
  password : String
  created_at : Nat
  updated_at : Nat
deriving DecidableEq

/-- Row of the day_schedules table. -/
structure ScheduleRow where
  date : String
  schedule : String
  created_at : Nat
  updated_at : Nat
deriving DecidableEq

/-- Row of the day_types table. -/
structure TypeRow where
  date : String
  type : String
  created_at : Nat
  updated_at : Nat
deriving DecidableEq

/-- Sort key of a nullable TIME column under ORDER BY time ASC: PostgreSQL
places NULLs last for an ascending order. -/
def timeKey (t : Option String) : Lex (Bool × List Char) :=
  match t with
  | none => toLex (true, [])
  | some s => toLex (false, s.data)

/-- Sort key of ORDER BY date ASC, time ASC, id ASC on events. -/
def eventKey (r : EventRow) : Lex (List Char × Lex (Lex (Bool × List Char) × Nat)) :=
  toLex (r.date.data, toLex (timeKey r.time, r.id))

def eventLE (a b : EventRow) : Prop := eventKey a ≤ eventKey b

instance : DecidableRel eventLE :=
  fun a b => inferInstanceAs (Decidable (eventKey a ≤ eventKey b))

instance : IsTotal EventRow eventLE := ⟨fun a b => le_total (eventKey a) (eventKey b)⟩

instance : IsTrans EventRow eventLE := ⟨fun _ _ _ hab hbc => le_trans hab hbc⟩

/-- Sort key of ORDER BY date ASC, grade_level ASC, id ASC on materials. -/
def materialKey (r : MaterialRow) : Lex (List Char × Lex (Int × Nat)) :=
  toLex (r.date.data, toLex (r.grade_level, r.id))

def materialLE (a b : MaterialRow) : Prop := materialKey a ≤ materialKey b

instance : DecidableRel materialLE :=
  fun a b => inferInstanceAs (Decidable (materialKey a ≤ materialKey b))

instance : IsTotal MaterialRow materialLE :=
  ⟨fun a b => le_total (materialKey a) (materialKey b)⟩

instance : IsTrans MaterialRow materialLE := ⟨fun _ _ _ hab hbc => le_trans hab hbc⟩

/-- Body of POST /api/events. -/
structure EventBody where
  school : JsVal
  date : JsVal
  title : JsVal
  department : JsVal
  time : JsVal
  description : JsVal
deriving DecidableEq

/-- Body of PUT /api/events/:id. -/
structure EventPutBody where
  title : JsVal
  department : JsVal
  time : JsVal
  description : JsVal
deriving DecidableEq

/-- Body of POST /api/materials. -/
structure MaterialBody where
  school : JsVal
  date : JsVal
  grade_level : JsVal
  title : JsVal
  link : JsVal
  description : JsVal
  password : JsVal
deriving DecidableEq

/-- Body of PUT /api/materials/:id. -/
structure MaterialPutBody where
  title : JsVal
  link : JsVal
  description : JsVal
  password : JsVal
deriving DecidableEq

/-- Body of POST /api/day-schedules. -/
structure SchedBody where
  date : JsVal
  schedule : JsVal
deriving DecidableEq

/-- Body of POST /api/day-types. -/
structure TypeBody where
  date : JsVal
  type : JsVal
deriving DecidableEq

/-- Success payload of a day-schedule upsert or delete. -/
structure SchedResp where
  date : Option String
  schedule : Option String
deriving DecidableEq

/-- Success payload of a day-type upsert or delete. -/
structure TypeResp where
  date : Option String
  type : Option String
deriving DecidableEq

/-- Embedding of POST /api/events (src/server.js lines 378-435). -/
def postEvent (now newId : Nat) (db : List EventRow) (b : EventBody) :
    Outcome EventRow × List EventRow :=
  if !b.school.truthy || !b.date.truthy || !b.title.truthy then
    (.err ⟨400, "School, date, and title are required", none⟩, db)
  else if !(b.school == JsVal.str "wlhs" || b.school == JsVal.str "wvhs") then
    (.err ⟨400, "School must be wlhs or wvhs", none⟩, db)
  else
    match formatDate b.date with
    | .error m => (.err ⟨500, "Failed to create event", some m⟩, db)
    | .ok none =>
      (.err ⟨500, "Failed to create event",
        some "null value in column date violates not-null constraint"⟩, db)
    | .ok (some fd) =>
      let row : EventRow :=
        { id := newId, school := b.school.toStr, date := fd, title := b.title.toStr,
          department := jsOrNull b.department, time := jsOrNull b.time,
          description := jsOrEmpty b.description, created_at := now, updated_at := now }
      (.ok 201 row, db ++ [row])

/-- Replacement row built by the UPDATE of PUT /api/events/:id. -/
def updEvent (now : Nat) (b : EventPutBody) (r : EventRow) : EventRow :=
  { r with
    title := b.title.toStr
    department := jsOrNull b.department
    time := jsOrNull b.time
    description := jsOrEmpty b.description
    updated_at := now }

/-- Embedding of PUT /api/events/:id (src/server.js lines 437-493). -/
def putEvent (now : Nat) (db : List EventRow) (eid : Nat) (b : EventPutBody) :
    Outcome EventRow × List EventRow :=
  if !b.title.truthy then (.err ⟨400, "Title is required", none⟩, db)
  else
    match db.find? (fun r => r.id == eid) with
    | none => (.err ⟨404, "Event not found", none⟩, db)
    | some r =>
      (.ok 200 (updEvent now b r),
        db.map (fun x => if x.id == eid then updEvent now b x else x))

/-- Sequential traversal of the response-row mapping: the first thrown error
aborts the whole request, as in the handler's try block. -/
def mapExcept {α β : Type} (f : α → Except String β) : List α → Except String (List β)
  | [] => .ok []
  | a :: t =>
    match f a with
    | .error e => .error e
    | .ok b =>
      match mapExcept f t with
      | .error e => .error e
      | .ok bs => .ok (b :: bs)

/-- Rows selected and ordered by the GET /api/events query. -/
def eventRowsFor (school : String) (db : List EventRow) : List EventRow :=
  List.insertionSort eventLE (db.filter (fun r => r.school == school))

/-- Serialization of one event row on the way out of GET /api/events. -/
def toEventOut (r : EventRow) : Except String EventOut :=
  match formatDate (.str r.date) with
  | .ok d =>
    .ok ⟨r.id, r.school, d, r.title, r.department, r.time, r.description,
      r.created_at, r.updated_at⟩
  | .error m => .error m

/-- Embedding of GET /api/events (src/server.js lines 322-376). -/
def listEvents (school : Option String) (db : List EventRow) : Outcome (List EventOut) :=
  if (school.getD "").isEmpty then
    .err ⟨400, "School parameter is required (wlhs or wvhs)", none⟩
  else if !(school == some "wlhs" || school == some "wvhs") then
    .err ⟨400, "School must be wlhs or wvhs", none⟩
  else
    match mapExcept toEventOut (eventRowsFor (school.getD "") db) with
    | .ok rows => .ok 200 rows
    | .error m => .err ⟨500, "Failed to fetch events", some m⟩

/-- Validity of grade_level for materials: parseInt then membership in
9, 10, 11, 12 (NaN is never a member). -/
def gradeOk (v : JsVal) : Bool :=
  match parseIntJs v with
  | some g => g == 9 || g == 10 || g == 11 || g == 12
  | none => false

/-- Embedding of POST /api/materials (src/server.js lines 609-674). -/
def postMaterial (now newId : Nat) (db : List MaterialRow) (b : MaterialBody) :
    Outcome MaterialRow × List MaterialRow :=
  if !b.school.truthy || !b.date.truthy || !b.grade_level.truthy ||
      !b.title.truthy || !b.link.truthy then
    (.err ⟨400, "School, date, grade_level, title, and link are required", none⟩, db)
  else if !(b.school == JsVal.str "wlhs" || b.school == JsVal.str "wvhs") then
    (.err ⟨400, "School must be wlhs or wvhs", none⟩, db)
  else if !gradeOk b.grade_level then
    (.err ⟨400, "Grade level must be 9, 10, 11, or 12", none⟩, db)
  else
    match formatDate b.date with
    | .error m => (.err ⟨500, "Failed to create material", some m⟩, db)
    | .ok none =>
      (.err ⟨500, "Failed to create material",
        some "null value in column date violates not-null constraint"⟩, db)
    | .ok (some fd) =>
      let row : MaterialRow :=
        { id := newId, school := b.school.toStr, date := fd,
          grade_level := (parseIntJs b.grade_level).getD 0, title := b.title.toStr,
          link := b.link.toStr, description := jsOrEmpty b.description,
          password := some (jsOrEmpty b.password), created_at := now, updated_at := now }
      (.ok 201 row, db ++ [row])

/-- Replacement row built by the UPDATE of PUT /api/materials/:id. -/
def updMaterial (now : Nat) (b : MaterialPutBody) (r : MaterialRow) : MaterialRow :=
  { r with
    title := b.title.toStr
    link := b.link.toStr
    description := jsOrEmpty b.description
    password := some (jsOrEmpty b.password)
    updated_at := now }

/-- Embedding of PUT /api/materials/:id (src/server.js lines 676-732). -/
def putMaterial (now : Nat) (db : List MaterialRow) (mid : Nat) (b : MaterialPutBody) :
    Outcome MaterialRow × List MaterialRow :=
  if !b.title.truthy || !b.link.truthy then
    (.err ⟨400, "Title and link are required", none⟩, db)
  else
    match db.find? (fun r => r.id == mid) with
    | none => (.err ⟨404, "Material not found", none⟩, db)
    | some r =>
      (.ok 200 (updMaterial now b r),
        db.map (fun x => if x.id == mid then updMaterial now b x else x))

/-- Rows selected and ordered by the GET /api/materials query, with the
optional grade filter. -/
def materialRowsFor (school : String) (grade : Option Int) (db : List MaterialRow) :
    List MaterialRow :=
  List.insertionSort materialLE (db.filter (fun r =>
    r.school == school &&
      (match grade with
       | some g => r.grade_level == g
       | none => true)))

/-- Serialization of one material row on the way out of GET /api/materials,
with the stored password coerced to the empty string when null. -/
def toMaterialOut (r : MaterialRow) : Except String MaterialOut :=
  match formatDate (.str r.date) with
  | .ok d =>
    .ok ⟨r.id, r.school, d, r.grade_level, r.title, r.link, r.description,
      r.password.getD "", r.created_at, r.updated_at⟩
  | .error m => .error m

/-- Query, ordering and serialization of GET /api/materials once the
parameters have been validated. -/
def renderMaterials (school : String) (g : Option Int) (db : List MaterialRow) :
    Outcome (List MaterialOut) :=
  match mapExcept toMaterialOut (materialRowsFor school g db) with
  | .ok rows => .ok 200 rows
  | .error m => .err ⟨500, "Failed to fetch materials", some m⟩

/-- Embedding of GET /api/materials (src/server.js lines 534-607). -/
def listMaterials (school grade : Option String) (db : List MaterialRow) :
    Outcome (List MaterialOut) :=
  if (school.getD "").isEmpty then
    .err ⟨400, "School parameter is required (wlhs or wvhs)", none⟩
  else if !(school == some "wlhs" || school == some "wvhs") then
    .err ⟨400, "School must be wlhs or wvhs", none⟩
  else
    match grade with
    | none => renderMaterials (school.getD "") none db
    | some g =>
      if g == "" then renderMaterials (school.getD "") none db
      else
        match parseIntJs (.str g) with
        | some gn =>
          if gn == 9 || gn == 10 || gn == 11 || gn == 12 then
            renderMaterials (school.getD "") (some gn) db
          else .err ⟨400, "Grade must be 9, 10, 11, or 12", none⟩
        | none => .err ⟨400, "Grade must be 9, 10, 11, or 12", none⟩

/-- Embedding of POST /api/day-schedules (src/server.js lines 806-874):
delete-on-falsy, else validate the A/B domain and upsert on the date key. -/
def postDaySchedule (now : Nat) (db : List ScheduleRow) (b : SchedBody) :
    Outcome SchedResp × List ScheduleRow :=
  if !b.date.truthy then (.err ⟨400, "Date is required", none⟩, db)
  else
    match formatDate b.date with
    | .error m => (.err ⟨500, "Failed to update day schedule", some m⟩, db)
    | .ok fd? =>
      let keyEq : ScheduleRow → Bool := fun r =>
        match fd? with
        | some fd => r.date == fd
        | none => false
      if !b.schedule.truthy then
        (.ok 200 ⟨fd?, none⟩, db.filter (fun r => !keyEq r))
      else if !(b.schedule == JsVal.str "A" || b.schedule == JsVal.str "B") then
        (.err ⟨400, "Schedule must be A or B", none⟩, db)
      else
        match fd? with
        | none =>
          (.err ⟨500, "Failed to update day schedule",
            some "null value in column date violates not-null constraint"⟩, db)
        | some fd =>
          let db2 :=
            if db.any (fun r => r.date == fd) then
              db.map (fun r =>
                if r.date == fd then
                  { r with schedule := b.schedule.toStr, updated_at := now }
                else r)
            else db ++ [⟨fd, b.schedule.toStr, now, now⟩]
          (.ok 200 ⟨some fd, some b.schedule.toStr⟩, db2)

/-- Embedding of POST /api/day-types (src/server.js lines 910-969):
delete-on-falsy, else upsert on the date key with no domain check. -/
def postDayType (now : Nat) (db : List TypeRow) (b : TypeBody) :
    Outcome TypeResp × List TypeRow :=
  if !b.date.truthy then (.err ⟨400, "Date is required", none⟩, db)
  else
    match formatDate b.date with
    | .error m => (.err ⟨500, "Failed to update day type", some m⟩, db)
    | .ok fd? =>
      let keyEq : TypeRow → Bool := fun r =>
        match fd? with
        | some fd => r.date == fd
        | none => false
      if !b.type.truthy then
        (.ok 200 ⟨fd?, none⟩, db.filter (fun r => !keyEq r))
      else
        match fd? with
        | none =>
          (.err ⟨500, "Failed to update day type",
            some "null value in column date violates not-null constraint"⟩, db)
        | some fd =>
          let db2 :=
            if db.any (fun r => r.date == fd) then
              db.map (fun r =>
                if r.date == fd then { r with type := b.type.toStr, updated_at := now }
                else r)
            else db ++ [⟨fd, b.type.toStr, now, now⟩]
          (.ok 200 ⟨some fd, some b.type.toStr⟩, db2)

/-- Modelled from the spec: the DateConfig row of the second server revision
(spec section 3), which is not part of src/server.js.  A row keyed by
date_key holds color (nullable hex string), day_type (nullable) and
is_access (boolean, default false). -/
structure DateConfigRow where
  date_key : String
  color : Option String
  day_type : Option String
  is_access : Bool
deriving DecidableEq

/-- Modelled from the spec: the partial-field payload of a DateConfig write;
a none field is an absent (null/undefined) incoming value. -/
structure DateConfigPatch where
  color : Option String
  day_type : Option String
  is_access : Option Bool
deriving DecidableEq

/-- Modelled from the spec: the on-conflict merge of one DateConfig row; each
field individually takes the incoming value when it is present and retains
the stored value otherwise (spec section 4.3). -/
def mergeDateConfig (p : DateConfigPatch) (r : DateConfigRow) : DateConfigRow :=
  { r with
    color := (match p.color with | some c => some c | none => r.color)
    day_type := (match p.day_type with | some t => some t | none => r.day_type)
    is_access := (match p.is_access with | some a => a | none => r.is_access) }

/-- Modelled from the spec: the coalesce-merge-upsert of DateConfig (spec
section 4.3), absent from src/server.js.  On first write for the key a row is
inserted using each incoming field if present, else a type-appropriate
default (null / false); on conflict the stored row is merged field by
field. -/
def coalesceMergeUpsert (store : List DateConfigRow) (key : String)
    (p : DateConfigPatch) : List DateConfigRow :=
  if store.any (fun r => r.date_key == key) then
    store.map (fun r => if r.date_key == key then mergeDateConfig p r else r)
  else
    store ++ [{ date_key := key, color := p.color, day_type := p.day_type,
                is_access := p.is_access.getD false }]

/-- Only a truthy input can take `formatDate` to a formatted date. -/
theorem truthy_of_formatDate_ok_some {v : JsVal} {fd : String}
    (h : formatDate v = .ok (some fd)) : v.truthy = true := by
  by_contra hne
  have hf : v.truthy = false := by
    cases hv : v.truthy
    · rfl
    · exact absurd hv hne
  simp [formatDate, hf] at h

/-- C2: against an existing DateConfig row, a coalesce-merge-upsert write
keeps each stored field whose incoming value is absent and overwrites each
field whose incoming value is present; in particular writing only
is_access = true against (color #fff, day_type A, is_access false) yields
(color #fff, day_type A, is_access true). -/
theorem dateConfig_coalesce_merge (store : List DateConfigRow) (key : String)
    (p : DateConfigPatch) (r : DateConfigRow) (hr : r ∈ store)
    (hk : r.date_key = key) :
    (∃ r2 ∈ coalesceMergeUpsert store key p,
      r2.date_key = key ∧
      (∀ c, p.color = some c → r2.color = some c) ∧
      (p.color = none → r2.color = r.color) ∧
      (∀ t, p.day_type = some t → r2.day_type = some t) ∧
      (p.day_type = none → r2.day_type = r.day_type) ∧
      (∀ a, p.is_access = some a → r2.is_access = a) ∧
      (p.is_access = none → r2.is_access = r.is_access)) ∧
    coalesceMergeUpsert [⟨key, some "#fff", some "A", false⟩] key
        ⟨none, none, some true⟩
      = [⟨key, some "#fff", some "A", true⟩] := by
  constructor
  · have hany : store.any (fun x => x.date_key == key) = true := by
      exact List.any_eq_true.mpr ⟨r, hr, by simp [hk]⟩
    refine ⟨mergeDateConfig p r, ?_, ?_⟩
    · simp only [coalesceMergeUpsert, hany, if_true]
      have : (fun x => if x.date_key == key then mergeDateConfig p x else x) r
          = mergeDateConfig p r := by simp [hk]
      exact this ▸ List.mem_map_of_mem _ hr
    · refine ⟨by simp [mergeDateConfig, hk], ?_, ?_, ?_, ?_, ?_, ?_⟩
      · intro c hc; simp [mergeDateConfig, hc]
      · intro hc; simp [mergeDateConfig, hc]
      · intro t ht; simp [mergeDateConfig, ht]
      · intro ht; simp [mergeDateConfig, ht]
      · intro a ha; simp [mergeDateConfig, ha]
      · intro ha; simp [mergeDateConfig, ha]
  · simp [coalesceMergeUpsert, mergeDateConfig]

/-- Witness for C2 at a concrete store and patch. -/
theorem dateConfig_coalesce_merge_witness :
    ∃ r2 ∈ coalesceMergeUpsert [⟨"2024-01-15", some "#fff", some "A", false⟩]
        "2024-01-15" ⟨none, none, some true⟩,
      r2.date_key = "2024-01-15" ∧ r2.color = some "#fff" ∧
      r2.day_type = some "A" ∧ r2.is_access = true := by
  obtain ⟨h1, -⟩ :=
    dateConfig_coalesce_merge [⟨"2024-01-15", some "#fff", some "A", false⟩]
      "2024-01-15" ⟨none, none, some true⟩
      ⟨"2024-01-15", some "#fff", some "A", false⟩ (by simp) rfl
  obtain ⟨r2, hmem, hkey, -, hcol, -, hday, hacc, -⟩ := h1
  exact ⟨r2, hmem, hkey, hcol rfl, hday rfl, hacc true rfl⟩

/-- With a parseable date and a falsy value, POST /api/day-schedules takes
the delete branch. -/
theorem postDaySchedule_delete (n : Nat) (v w : JsVal) (fd : String)
    (db : List ScheduleRow) (hfd : formatDate v = .ok (some fd))
    (hw : w.truthy = false) :
    postDaySchedule n db ⟨v, w⟩
      = (.ok 200 ⟨some fd, none⟩, db.filter (fun r => !(r.date == fd))) := by
  have htv := truthy_of_formatDate_ok_some hfd
  simp [postDaySchedule, htv, hfd, hw]

/-- With a parseable date and a falsy value, POST /api/day-types takes the
delete branch. -/
theorem postDayType_delete (n : Nat) (v w : JsVal) (fd : String)
    (db : List TypeRow) (hfd : formatDate v = .ok (some fd))
    (hw : w.truthy = false) :
    postDayType n db ⟨v, w⟩
      = (.ok 200 ⟨some fd, none⟩, db.filter (fun r => !(r.date == fd))) := by
  have htv := truthy_of_formatDate_ok_some hfd
  simp [postDayType, htv, hfd, hw]

/-- C3: the delete branch of the day-schedule and day-type upserts is
idempotent: a null/absent value always reports success and leaves no row for
the date key; when no row exists the store is unchanged (success, not a
not-found error); and submitting null twice leaves the same store as
submitting it once. -/
theorem delete_on_null_idempotent (now now2 : Nat) (v w : JsVal) (fd : String)
    (hfd : formatDate v = .ok (some fd))
    (hw : w = JsVal.null ∨ w = JsVal.undef) :
    (∀ db : List ScheduleRow,
      (postDaySchedule now db ⟨v, w⟩).1 = .ok 200 ⟨some fd, none⟩ ∧
      (∀ r ∈ (postDaySchedule now db ⟨v, w⟩).2, r.date ≠ fd) ∧
      ((∀ r ∈ db, r.date ≠ fd) → (postDaySchedule now db ⟨v, w⟩).2 = db) ∧
      (postDaySchedule now2 (postDaySchedule now db ⟨v, w⟩).2 ⟨v, w⟩).2
        = (postDaySchedule now db ⟨v, w⟩).2) ∧
    (∀ db : List TypeRow,
      (postDayType now db ⟨v, w⟩).1 = .ok 200 ⟨some fd, none⟩ ∧
      (∀ r ∈ (postDayType now db ⟨v, w⟩).2, r.date ≠ fd) ∧
      ((∀ r ∈ db, r.date ≠ fd) → (postDayType now db ⟨v, w⟩).2 = db) ∧
      (postDayType now2 (postDayType now db ⟨v, w⟩).2 ⟨v, w⟩).2
        = (postDayType now db ⟨v, w⟩).2) := by
  have hwf : w.truthy = false := by
    rcases hw with h | h <;> simp [h, JsVal.truthy]
  constructor
  · intro db
    rw [postDaySchedule_delete now v w fd db hfd hwf]
    refine ⟨rfl, ?_, ?_, ?_⟩
    · intro r hr
      have := (List.mem_filter.mp hr).2
      simpa using this
    · intro h
      apply List.filter_eq_self.mpr
      intro r hr
      simpa using h r hr
    · rw [postDaySchedule_delete now2 v w fd _ hfd hwf]
      apply List.filter_eq_self.mpr
      intro r hr
      exact (List.mem_filter.mp hr).2
  · intro db
    rw [postDayType_delete now v w fd db hfd hwf]
    refine ⟨rfl, ?_, ?_, ?_⟩
    · intro r hr
      have := (List.mem_filter.mp hr).2
      simpa using this
    · intro h
      apply List.filter_eq_self.mpr
      intro r hr
      simpa using h r hr
    · rw [postDayType_delete now2 v w fd _ hfd hwf]
      apply List.filter_eq_self.mpr
      intro r hr
      exact (List.mem_filter.mp hr).2

/-- Witness for C3 at a concrete store. -/
theorem delete_on_null_idempotent_witness :
    (postDaySchedule 5 [⟨"2024-01-15", "A", 0, 0⟩]
        ⟨.str "2024-01-15", .null⟩).1 = .ok 200 ⟨some "2024-01-15", none⟩ ∧
    (postDaySchedule 7
        (postDaySchedule 5 [⟨"2024-01-15", "A", 0, 0⟩]
          ⟨.str "2024-01-15", .null⟩).2 ⟨.str "2024-01-15", .null⟩).2
      = (postDaySchedule 5 [⟨"2024-01-15", "A", 0, 0⟩]
          ⟨.str "2024-01-15", .null⟩).2 := by
  obtain ⟨hs, -⟩ := delete_on_null_idempotent 5 7 (.str "2024-01-15") .null
    "2024-01-15" rfl (Or.inl rfl)
  obtain ⟨h1, -, -, h4⟩ := hs [⟨"2024-01-15", "A", 0, 0⟩]
  exact ⟨h1, h4⟩

/-- C9: a day-schedule or day-type write whose date is present and whose
value is present but falsy (such as the empty string) takes the delete
branch — removing any existing row for the key and reporting success — and
is never rejected by the enumerated-domain check. -/
theorem falsy_value_takes_delete_branch (now : Nat) (v w : JsVal) (fd : String)
    (hfd : formatDate v = .ok (some fd)) (hw : w.truthy = false) :
    (∀ db : List ScheduleRow,
      postDaySchedule now db ⟨v, w⟩
        = (.ok 200 ⟨some fd, none⟩, db.filter (fun r => !(r.date == fd)))) ∧
    (∀ db : List TypeRow,
      postDayType now db ⟨v, w⟩
        = (.ok 200 ⟨some fd, none⟩, db.filter (fun r => !(r.date == fd)))) :=
  ⟨fun db => postDaySchedule_delete now v w fd db hfd hw,
   fun db => postDayType_delete now v w fd db hfd hw⟩

/-- Witness for C9: the empty string deletes the existing row instead of
failing the A/B domain check. -/
theorem falsy_value_takes_delete_branch_witness :
    postDaySchedule 3 [⟨"2024-01-15", "A", 0, 0⟩]
        ⟨.str "2024-01-15", .str ""⟩
      = (.ok 200 ⟨some "2024-01-15", none⟩, []) := by
  have h := (falsy_value_takes_delete_branch 3 (.str "2024-01-15") (.str "")
    "2024-01-15" rfl rfl).1 [⟨"2024-01-15", "A", 0, 0⟩]
  exact h.trans (by rfl)

/-- C8: a create payload with a value outside an enumerated domain always
fails with a 400 validation response and never reaches the store: school
"other" is rejected for events and for materials, and a grade_level parsing
to 13 is rejected for materials, whatever the other fields are. -/
theorem enumerated_domain_rejection :
    (∀ (now newId : Nat) (db : List EventRow) (b : EventBody),
      b.school = .str "other" →
      ∃ e, postEvent now newId db b = (.err e, db) ∧ e.status = 400) ∧
    (∀ (now newId : Nat) (db : List MaterialRow) (b : MaterialBody),
      b.school = .str "other" →
      ∃ e, postMaterial now newId db b = (.err e, db) ∧ e.status = 400) ∧
    (∀ (now newId : Nat) (db : List MaterialRow) (b : MaterialBody),
      parseIntJs b.grade_level = some 13 →
      ∃ e, postMaterial now newId db b = (.err e, db) ∧ e.status = 400) := by
  refine ⟨?_, ?_, ?_⟩
  · intro now newId db b hschool
    simp only [postEvent]
    split_ifs with h1 h2
    · exact ⟨_, rfl, rfl⟩
    · exact ⟨_, rfl, rfl⟩
    · exfalso
      apply h2
      simp [hschool]
  · intro now newId db b hschool
    simp only [postMaterial]
    split_ifs with h1 h2 h3
    · exact ⟨_, rfl, rfl⟩
    · exact ⟨_, rfl, rfl⟩
    · exact ⟨_, rfl, rfl⟩
    · exfalso
      apply h2
      simp [hschool]
  · intro now newId db b hgrade
    simp only [postMaterial]
    split_ifs with h1 h2 h3
    · exact ⟨_, rfl, rfl⟩
    · exact ⟨_, rfl, rfl⟩
    · exact ⟨_, rfl, rfl⟩
    · exfalso
      apply h3
      simp [gradeOk, hgrade]
  
/-- Witness for C8 at concrete payloads. -/
theorem enumerated_domain_rejection_witness :
    (∃ e, postEvent 0 1 []
        ⟨.str "other", .str "2024-01-15", .str "Homecoming", .null, .null, .null⟩
      = (.err e, []) ∧ e.status = 400) ∧
    (∃ e, postMaterial 0 1 []
        ⟨.str "wlhs", .str "2024-01-15", .num 13, .str "Worksheet",
          .str "https://example.org", .null, .null⟩
      = (.err e, []) ∧ e.status = 400) :=
  ⟨enumerated_domain_rejection.1 0 1 [] _ rfl,
   enumerated_domain_rejection.2.2 0 1 [] _ rfl⟩

/-- C1 counterexample: a create request with all required fields present, a
valid school, and an unparseable date string is answered with a 500 response
(the generic catch), not with a 400 validation response as the claim
states. -/
theorem invalid_date_counterexample :
    postEvent 0 1 []
        ⟨.str "wlhs", .str "not-a-date", .str "Homecoming", .null, .null, .null⟩
      = (.err ⟨500, "Failed to create event", some "Invalid date format"⟩, []) := rfl

/-- C1 amended: for every create request (event or material) whose required
fields are present and whose enumerated fields are valid but whose date is
an unparseable string, the operation fails with the thrown message
"Invalid date format", which the handler's catch-all maps to a 500 response
carrying the message in its details — not a 400 — and the store is
unchanged. -/
theorem invalid_date_maps_to_500 :
    (∀ (now newId : Nat) (db : List EventRow) (b : EventBody) (s : String),
      b.date = .str s → parseDateChars s.data = none → s ≠ "" →
      b.title.truthy = true →
      (b.school = .str "wlhs" ∨ b.school = .str "wvhs") →
      postEvent now newId db b
        = (.err ⟨500, "Failed to create event", some "Invalid date format"⟩, db)) ∧
    (∀ (now newId : Nat) (db : List MaterialRow) (b : MaterialBody) (s : String),
      b.date = .str s → parseDateChars s.data = none → s ≠ "" →
      b.grade_level.truthy = true → b.title.truthy = true → b.link.truthy = true →
      gradeOk b.grade_level = true →
      (b.school = .str "wlhs" ∨ b.school = .str "wvhs") →
      postMaterial now newId db b
        = (.err ⟨500, "Failed to create material", some "Invalid date format"⟩, db)) := by
  constructor
  · intro now newId db b s hdate hparse hs htitle hschool
    have hts : (JsVal.str s).truthy = true := by simp [JsVal.truthy, hs]
    have hd : b.date.truthy = true := by rw [hdate]; exact hts
    rcases hschool with h | h <;>
      simp [postEvent, hd, h, htitle, hdate, formatDate, hts, hparse] <;> rfl
  · intro now newId db b s hdate hparse hs hg htitle hlink hgok hschool
    have hts : (JsVal.str s).truthy = true := by simp [JsVal.truthy, hs]
    have hd : b.date.truthy = true := by rw [hdate]; exact hts
    rcases hschool with h | h <;>
      simp [postMaterial, hd, h, htitle, hlink, hg, hgok, hdate, formatDate,
        hts, hparse] <;> rfl

/-- Witness for the amended C1 at a concrete request. -/
theorem invalid_date_maps_to_500_witness :
    postEvent 2 9 []
        ⟨.str "wvhs", .str "garbage", .str "Assembly", .null, .null, .null⟩
      = (.err ⟨500, "Failed to create event", some "Invalid date format"⟩, []) :=
  invalid_date_maps_to_500.1 2 9 []
    ⟨.str "wvhs", .str "garbage", .str "Assembly", .null, .null, .null⟩
    "garbage" rfl rfl (by decide) rfl (Or.inr rfl)

/-- C4: an update (event or material) targeting an id with no matching row
leaves the store unchanged and is answered with a 4xx error response — a 404
not-found when the body passes validation — never a 500 and never a silently
created row. -/
theorem update_nonexistent_notfound :
    (∀ (now : Nat) (db : List EventRow) (eid : Nat) (b : EventPutBody),
      (∀ r ∈ db, r.id ≠ eid) →
      (putEvent now db eid b).2 = db ∧
      ∃ e, (putEvent now db eid b).1 = .err e ∧ (e.status = 400 ∨ e.status = 404) ∧
        (b.title.truthy = true → e = ⟨404, "Event not found", none⟩)) ∧
    (∀ (now : Nat) (db : List MaterialRow) (mid : Nat) (b : MaterialPutBody),
      (∀ r ∈ db, r.id ≠ mid) →
      (putMaterial now db mid b).2 = db ∧
      ∃ e, (putMaterial now db mid b).1 = .err e ∧ (e.status = 400 ∨ e.status = 404) ∧
        (b.title.truthy = true → b.link.truthy = true →
          e = ⟨404, "Material not found", none⟩)) := by
  constructor
  · intro now db eid b h
    have hf : db.find? (fun r => r.id == eid) = none :=
      List.find?_eq_none.mpr (fun r hr => by simpa using h r hr)
    by_cases ht : b.title.truthy = true
    · have hchar : putEvent now db eid b = (.err ⟨404, "Event not found", none⟩, db) := by
        simp [putEvent, ht, hf]
      rw [hchar]
      exact ⟨rfl, _, rfl, Or.inr rfl, fun _ => rfl⟩
    · have ht2 : b.title.truthy = false := by
        revert ht; cases b.title.truthy <;> simp
      have hchar : putEvent now db eid b = (.err ⟨400, "Title is required", none⟩, db) := by
        simp [putEvent, ht2]
      rw [hchar]
      exact ⟨rfl, _, rfl, Or.inl rfl, fun hc => absurd hc (by simp [ht2])⟩
  · intro now db mid b h
    have hf : db.find? (fun r => r.id == mid) = none :=
      List.find?_eq_none.mpr (fun r hr => by simpa using h r hr)
    by_cases ht : b.title.truthy = true
    · by_cases hl : b.link.truthy = true
      · have hchar : putMaterial now db mid b
            = (.err ⟨404, "Material not found", none⟩, db) := by
          simp [putMaterial, ht, hl, hf]
        rw [hchar]
        exact ⟨rfl, _, rfl, Or.inr rfl, fun _ _ => rfl⟩
      · have hl2 : b.link.truthy = false := by
          revert hl; cases b.link.truthy <;> simp
        have hchar : putMaterial now db mid b
            = (.err ⟨400, "Title and link are required", none⟩, db) := by
          simp [putMaterial, hl2]
        rw [hchar]
        exact ⟨rfl, _, rfl, Or.inl rfl, fun _ hc => absurd hc (by simp [hl2])⟩
    · have ht2 : b.title.truthy = false := by
        revert ht; cases b.title.truthy <;> simp
      have hchar : putMaterial now db mid b
          = (.err ⟨400, "Title and link are required", none⟩, db) := by
        simp [putMaterial, ht2]
      rw [hchar]
      exact ⟨rfl, _, rfl, Or.inl rfl, fun hc _ => absurd hc (by simp [ht2])⟩

/-- Witness for C4 at a concrete empty store. -/
theorem update_nonexistent_notfound_witness :
    (putEvent 0 [] 3 ⟨.str "T", .null, .null, .null⟩).2 = [] ∧
    ∃ e, (putEvent 0 [] 3 ⟨.str "T", .null, .null, .null⟩).1 = .err e ∧
      (e.status = 400 ∨ e.status = 404) := by
  obtain ⟨h1, e, h2, h3, -⟩ :=
    update_nonexistent_notfound.1 0 [] 3 ⟨.str "T", .null, .null, .null⟩ (by simp)
  exact ⟨h1, e, h2, h3⟩

/-- C6: an accepted update is a full replace of the mutable field subset —
title/department/time/description for events, title/link/description/password
for materials: mutable fields omitted from the payload are stored as their
falsy default (empty description, null department/time), fields outside the
subset (id, school, date, grade_level, created_at) are unchanged, and an
update without a title (or link, for materials) is rejected. -/
theorem update_full_replace :
    (∀ (now : Nat) (db : List EventRow) (eid : Nat) (b : EventPutBody),
      (b.title.truthy = false →
        putEvent now db eid b = (.err ⟨400, "Title is required", none⟩, db)) ∧
      (b.title.truthy = true → ∀ r ∈ db,
        (r.id ≠ eid → r ∈ (putEvent now db eid b).2) ∧
        (r.id = eid → ∃ r2 ∈ (putEvent now db eid b).2,
          r2.id = r.id ∧ r2.title = b.title.toStr ∧
          r2.department = jsOrNull b.department ∧ r2.time = jsOrNull b.time ∧
          r2.description = jsOrEmpty b.description ∧
          r2.school = r.school ∧ r2.date = r.date ∧
          r2.created_at = r.created_at ∧ r2.updated_at = now))) ∧
    (∀ (now : Nat) (db : List MaterialRow) (mid : Nat) (b : MaterialPutBody),
      ((b.title.truthy = false ∨ b.link.truthy = false) →
        putMaterial now db mid b
          = (.err ⟨400, "Title and link are required", none⟩, db)) ∧
      (b.title.truthy = true → b.link.truthy = true → ∀ r ∈ db,
        (r.id ≠ mid → r ∈ (putMaterial now db mid b).2) ∧
        (r.id = mid → ∃ r2 ∈ (putMaterial now db mid b).2,
          r2.id = r.id ∧ r2.title = b.title.toStr ∧ r2.link = b.link.toStr ∧
          r2.description = jsOrEmpty b.description ∧
          r2.password = some (jsOrEmpty b.password) ∧
          r2.school = r.school ∧ r2.date = r.date ∧
          r2.grade_level = r.grade_level ∧
          r2.created_at = r.created_at ∧ r2.updated_at = now))) ∧
    jsOrEmpty JsVal.undef = "" ∧ jsOrNull JsVal.undef = none := by
  refine ⟨?_, ?_, rfl, rfl⟩
  · intro now db eid b
    constructor
    · intro ht; simp [putEvent, ht]
    · intro ht r hr
      cases hf : db.find? (fun x => x.id == eid) with
      | none =>
        refine ⟨fun _ => by simpa [putEvent, ht, hf] using hr, fun heq => ?_⟩
        exfalso
        have := List.find?_eq_none.mp hf r hr
        simp [heq] at this
      | some r0 =>
        have hres : (putEvent now db eid b).2
            = db.map (fun x => if x.id == eid then updEvent now b x else x) := by
          simp [putEvent, ht, hf]
        constructor
        · intro hne
          rw [hres]
          have hfix : (fun x => if x.id == eid then updEvent now b x else x) r = r := by
            simp [hne]
          exact hfix ▸ List.mem_map_of_mem _ hr
        · intro heq
          rw [hres]
          refine ⟨updEvent now b r, ?_, ?_⟩
          · have hfix : (fun x => if x.id == eid then updEvent now b x else x) r
                = updEvent now b r := by simp [heq]
            exact hfix ▸ List.mem_map_of_mem _ hr
          · simp [updEvent]
  · intro now db mid b
    constructor
    · intro ht
      rcases ht with h | h <;> simp [putMaterial, h]
    · intro ht hl r hr
      cases hf : db.find? (fun x => x.id == mid) with
      | none =>
        refine ⟨fun _ => by simpa [putMaterial, ht, hl, hf] using hr, fun heq => ?_⟩
        exfalso
        have := List.find?_eq_none.mp hf r hr
        simp [heq] at this
      | some r0 =>
        have hres : (putMaterial now db mid b).2
            = db.map (fun x => if x.id == mid then updMaterial now b x else x) := by
          simp [putMaterial, ht, hl, hf]
        constructor
        · intro hne
          rw [hres]
          have hfix : (fun x => if x.id == mid then updMaterial now b x else x) r = r := by
            simp [hne]
          exact hfix ▸ List.mem_map_of_mem _ hr
        · intro heq
          rw [hres]
          refine ⟨updMaterial now b r, ?_, ?_⟩
          · have hfix : (fun x => if x.id == mid then updMaterial now b x else x) r
                = updMaterial now b r := by simp [heq]
            exact hfix ▸ List.mem_map_of_mem _ hr
          · simp [updMaterial]

/-- Witness for C6: updating with only a title resets description to empty
and department/time to null while school, date and created_at survive. -/
theorem update_full_replace_witness :
    ∃ r2 ∈ (putEvent 9
        [⟨5, "wlhs", "2024-01-15", "Old", some "Math", some "09:00", "old text", 1, 1⟩]
        5 ⟨.str "New", .undef, .undef, .undef⟩).2,
      r2.id = 5 ∧ r2.title = "New" ∧ r2.department = none ∧ r2.time = none ∧
      r2.description = "" ∧ r2.school = "wlhs" ∧ r2.date = "2024-01-15" ∧
      r2.created_at = 1 ∧ r2.updated_at = 9 := by
  have h := (update_full_replace.1 9
      [⟨5, "wlhs", "2024-01-15", "Old", some "Math", some "09:00", "old text", 1, 1⟩]
      5 ⟨.str "New", .undef, .undef, .undef⟩).2 rfl
      ⟨5, "wlhs", "2024-01-15", "Old", some "Math", some "09:00", "old text", 1, 1⟩
      (by simp)
  obtain ⟨r2, hmem, hid, htl, hdep, htm, hdesc, hsch, hdt, hca, hua⟩ := h.2 rfl
  exact ⟨r2, hmem, hid, htl, hdep, htm, hdesc, hsch, hdt, hca, hua⟩

/-- A successful traversal pairs every output with a source element and every
source element with an output. -/
theorem mapExcept_ok_mem {α β : Type} (f : α → Except String β) :
    ∀ (l : List α) (out : List β), mapExcept f l = .ok out →
      (∀ o ∈ out, ∃ a ∈ l, f a = .ok o) ∧ (∀ a ∈ l, ∃ o ∈ out, f a = .ok o) := by
  intro l
  induction l with
  | nil =>
    intro out h
    simp only [mapExcept] at h
    obtain rfl : ([] : List β) = out := by simpa using h
    simp
  | cons a t ih =>
    intro out h
    simp only [mapExcept] at h
    cases hfa : f a with
    | error e => rw [hfa] at h; simp at h
    | ok b =>
      rw [hfa] at h
      cases hmt : mapExcept f t with
      | error e => rw [hmt] at h; simp at h
      | ok bs =>
        rw [hmt] at h
        obtain rfl : b :: bs = out := by simpa using h
        refine ⟨?_, ?_⟩
        · intro o ho
          rcases List.mem_cons.mp ho with rfl | ho2
          · exact ⟨a, List.mem_cons_self a t, hfa⟩
          · obtain ⟨x, hx, hfx⟩ := (ih bs hmt).1 o ho2
            exact ⟨x, List.mem_cons_of_mem a hx, hfx⟩
        · intro x hx
          rcases List.mem_cons.mp hx with rfl | hx2
          · exact ⟨b, List.mem_cons_self b bs, hfa⟩
          · obtain ⟨o, ho, hfo⟩ := (ih bs hmt).2 x hx2
            exact ⟨o, List.mem_cons_of_mem b ho, hfo⟩

/-- A traversal on which every element succeeds succeeds as a whole. -/
theorem mapExcept_total {α β : Type} (f : α → Except String β) :
    ∀ l : List α, (∀ a ∈ l, ∃ b, f a = .ok b) → ∃ out, mapExcept f l = .ok out := by
  intro l
  induction l with
  | nil => intro h; exact ⟨[], rfl⟩
  | cons a t ih =>
    intro h
    obtain ⟨b, hb⟩ := h a (List.mem_cons_self a t)
    obtain ⟨bs, hbs⟩ := ih (fun x hx => h x (List.mem_cons_of_mem a hx))
    exact ⟨b :: bs, by simp [mapExcept, hb, hbs]⟩

/-- A serialized material record keeps the stored id and the stored password
coerced to the empty string when null. -/
theorem toMaterialOut_ok {r : MaterialRow} {o : MaterialOut}
    (h : toMaterialOut r = .ok o) :
    o.id = r.id ∧ o.password = r.password.getD "" := by
  unfold toMaterialOut at h
  cases hf : formatDate (.str r.date) with
  | ok d =>
    rw [hf] at h
    obtain rfl : (⟨r.id, r.school, d, r.grade_level, r.title, r.link, r.description,
        r.password.getD "", r.created_at, r.updated_at⟩ : MaterialOut) = o := by
      simpa using h
    exact ⟨rfl, rfl⟩
  | error m => rw [hf] at h; simp at h

/-- A successful render of materials is the 200 response on the traversal of
the selected rows. -/
theorem renderMaterials_ok {school : String} {g : Option Int}
    {db : List MaterialRow} {s : Nat} {out : List MaterialOut}
    (h : renderMaterials school g db = .ok s out) :
    s = 200 ∧ mapExcept toMaterialOut (materialRowsFor school g db) = .ok out := by
  unfold renderMaterials at h
  cases hm : mapExcept toMaterialOut (materialRowsFor school g db) with
  | ok rows =>
    rw [hm] at h
    have h2 : 200 = s ∧ rows = out := by simpa using h
    exact ⟨h2.1.symm, by rw [h2.2]⟩
  | error m => rw [hm] at h; simp at h

/-- Selected material rows come from the store. -/
theorem mem_db_of_mem_materialRowsFor {r : MaterialRow} {school : String}
    {g : Option Int} {db : List MaterialRow}
    (hr : r ∈ materialRowsFor school g db) : r ∈ db := by
  unfold materialRowsFor at hr
  have := (List.perm_insertionSort materialLE _).mem_iff.mp hr
  exact (List.mem_filter.mp this).1

/-- C10: every successful response of the materials list contains, for each
selected stored row, a record carrying the stored plaintext password
verbatim (null coerced to the empty string); the handler takes no credential
and the password gates nothing in this path. -/
theorem materials_list_discloses_passwords
    (db : List MaterialRow) (school grade : Option String) (s : Nat)
    (out : List MaterialOut) (h : listMaterials school grade db = .ok s out) :
    (∀ o ∈ out, ∃ r ∈ db, r.id = o.id ∧ o.password = r.password.getD "") ∧
    (grade = none → ∀ r ∈ db, r.school = school.getD "" →
      ∃ o ∈ out, o.id = r.id ∧ o.password = r.password.getD "") := by
  have hrend : ∃ g, renderMaterials (school.getD "") g db = .ok s out ∧
      (grade = none → g = none) := by
    unfold listMaterials at h
    split at h
    · exact absurd h (by simp)
    · split at h
      · exact absurd h (by simp)
      · split at h
        · exact ⟨none, h, fun _ => rfl⟩
        · rename_i g2
          split at h
          · exact ⟨none, h, fun _ => rfl⟩
          · split at h
            · rename_i gn hpars
              split at h
              · exact ⟨some gn, h, fun hc => nomatch hc⟩
              · exact absurd h (by simp)
            · exact absurd h (by simp)
  obtain ⟨g, hg, hgnone⟩ := hrend
  obtain ⟨hs200, hmap⟩ := renderMaterials_ok hg
  obtain ⟨hfwd, hbwd⟩ := mapExcept_ok_mem toMaterialOut _ out hmap
  constructor
  · intro o ho
    obtain ⟨r, hr, hro⟩ := hfwd o ho
    obtain ⟨hid, hpw⟩ := toMaterialOut_ok hro
    exact ⟨r, mem_db_of_mem_materialRowsFor hr, hid.symm, hpw⟩
  · intro hgr r hr hschool
    have hg0 : g = none := hgnone hgr
    subst hg0
    have hrmem : r ∈ materialRowsFor (school.getD "") none db := by
      unfold materialRowsFor
      exact (List.perm_insertionSort materialLE _).mem_iff.mpr
        (List.mem_filter.mpr ⟨hr, by simp [hschool]⟩)
    obtain ⟨o, ho, hfo⟩ := hbwd r hrmem
    obtain ⟨hid, hpw⟩ := toMaterialOut_ok hfo
    exact ⟨o, ho, hid, hpw⟩

/-- Witness for C10 at a concrete store with a stored password. -/
theorem materials_list_discloses_passwords_witness :
    ∃ out, listMaterials (some "wlhs") none
        [⟨1, "wlhs", "2024-01-15", 9, "Algebra", "https://x", "", some "secret", 0, 0⟩]
      = .ok 200 out ∧ ∃ o ∈ out, o.id = 1 ∧ o.password = "secret" := by
  have h : listMaterials (some "wlhs") none
      [⟨1, "wlhs", "2024-01-15", 9, "Algebra", "https://x", "", some "secret", 0, 0⟩]
      = .ok 200 [⟨1, "wlhs", some "2024-01-15", 9, "Algebra", "https://x", "",
        "secret", 0, 0⟩] := rfl
  refine ⟨_, h, ?_⟩
  have h2 := (materials_list_discloses_passwords _ _ _ _ _ h).2 rfl
    ⟨1, "wlhs", "2024-01-15", 9, "Algebra", "https://x", "", some "secret", 0, 0⟩
    (by simp) rfl
  exact h2

/-- Two sorted permutations of each other coincide when the sort key is
injective on their elements. -/
theorem sortedKeyPermEq {α β : Type} [LinearOrder β] (key : α → β) :
    ∀ (l₁ l₂ : List α), l₁.Perm l₂ →
      l₁.Sorted (fun a b => key a ≤ key b) →
      l₂.Sorted (fun a b => key a ≤ key b) →
      (∀ a ∈ l₁, ∀ b ∈ l₁, key a = key b → a = b) → l₁ = l₂ := by
  intro l₁
  induction l₁ with
  | nil =>
    intro l₂ hp _ _ _
    exact hp.nil_eq
  | cons a t₁ ih =>
    intro l₂ hp hs₁ hs₂ hinj
    cases l₂ with
    | nil => exact absurd hp.symm.nil_eq (by simp)
    | cons b t₂ =>
      have hmem_b : b ∈ a :: t₁ := hp.symm.subset (List.mem_cons_self b t₂)
      have hmem_a : a ∈ b :: t₂ := hp.subset (List.mem_cons_self a t₁)
      have hab : a = b := by
        have h1 : key a ≤ key b := by
          rcases List.mem_cons.mp hmem_b with h | h
          · exact le_of_eq (congrArg key h.symm)
          · exact (List.sorted_cons.mp hs₁).1 b h
        have h2 : key b ≤ key a := by
          rcases List.mem_cons.mp hmem_a with h | h
          · exact le_of_eq (congrArg key h.symm)
          · exact (List.sorted_cons.mp hs₂).1 a h
        exact hinj a (List.mem_cons_self a t₁) b hmem_b (le_antisymm h1 h2)
      subst hab
      have hp2 : t₁.Perm t₂ := (List.perm_cons a).mp hp
      have ht : t₁ = t₂ :=
        ih t₂ hp2 (List.sorted_cons.mp hs₁).2 (List.sorted_cons.mp hs₂).2
          (fun x hx y hy => hinj x (List.mem_cons_of_mem a hx) y
            (List.mem_cons_of_mem a hy))
      rw [ht]

/-- Equal event sort keys force equal ids (the id is the final tiebreak). -/
theorem eventKey_eq_id {a b : EventRow} (h : eventKey a = eventKey b) :
    a.id = b.id := by
  have h1 : (a.date.data, toLex (timeKey a.time, a.id))
      = (b.date.data, toLex (timeKey b.time, b.id)) := h
  have h2 : (timeKey a.time, a.id) = (timeKey b.time, b.id) := congrArg Prod.snd h1
  exact congrArg Prod.snd h2

/-- Equal material sort keys force equal ids. -/
theorem materialKey_eq_id {a b : MaterialRow} (h : materialKey a = materialKey b) :
    a.id = b.id := by
  have h1 : (a.date.data, toLex (a.grade_level, a.id))
      = (b.date.data, toLex (b.grade_level, b.id)) := h
  have h2 : (a.grade_level, a.id) = (b.grade_level, b.id) := congrArg Prod.snd h1
  exact congrArg Prod.snd h2

/-- The ordered event selection is a function of the set of rows: any
permutation of a store with distinct ids selects the same ordered list. -/
theorem eventRowsFor_perm_eq (db₁ db₂ : List EventRow) (school : String)
    (hp : db₁.Perm db₂) (hnd : (db₁.map EventRow.id).Nodup) :
    eventRowsFor school db₁ = eventRowsFor school db₂ := by
  apply sortedKeyPermEq eventKey
  · exact (List.perm_insertionSort eventLE _).trans
      ((hp.filter _).trans (List.perm_insertionSort eventLE _).symm)
  · exact List.sorted_insertionSort eventLE _
  · exact List.sorted_insertionSort eventLE _
  · intro a ha b hb hk
    have ha2 : a ∈ db₁ := by
      have := (List.perm_insertionSort eventLE _).mem_iff.mp ha
      exact (List.mem_filter.mp this).1
    have hb2 : b ∈ db₁ := by
      have := (List.perm_insertionSort eventLE _).mem_iff.mp hb
      exact (List.mem_filter.mp this).1
    exact List.inj_on_of_nodup_map hnd ha2 hb2 (eventKey_eq_id hk)

/-- The ordered material selection is a function of the set of rows. -/
theorem materialRowsFor_perm_eq (db₁ db₂ : List MaterialRow) (school : String)
    (g : Option Int) (hp : db₁.Perm db₂)
    (hnd : (db₁.map MaterialRow.id).Nodup) :
    materialRowsFor school g db₁ = materialRowsFor school g db₂ := by
  apply sortedKeyPermEq materialKey
  · exact (List.perm_insertionSort materialLE _).trans
      ((hp.filter _).trans (List.perm_insertionSort materialLE _).symm)
  · exact List.sorted_insertionSort materialLE _
  · exact List.sorted_insertionSort materialLE _
  · intro a ha b hb hk
    have ha2 : a ∈ db₁ := by
      have := (List.perm_insertionSort materialLE _).mem_iff.mp ha
      exact (List.mem_filter.mp this).1
    have hb2 : b ∈ db₁ := by
      have := (List.perm_insertionSort materialLE _).mem_iff.mp hb
      exact (List.mem_filter.mp this).1
    exact List.inj_on_of_nodup_map hnd ha2 hb2 (materialKey_eq_id hk)

/-- C7: list responses are ordered by a deterministic total order — events by
date, then time (nulls last), then id; materials by date, then grade_level,
then id — with the id as the final tiebreak, so two distinct selected rows
never compare equal, and any permutation of a store with distinct ids is
answered with the identical response. -/
theorem list_order_deterministic :
    (∀ (db₁ db₂ : List EventRow) (school : Option String),
      db₁.Perm db₂ → (db₁.map EventRow.id).Nodup →
      listEvents school db₁ = listEvents school db₂) ∧
    (∀ (db : List EventRow) (school : String),
      List.Sorted eventLE (eventRowsFor school db)) ∧
    (∀ (db : List EventRow) (school : String), (db.map EventRow.id).Nodup →
      ∀ a ∈ eventRowsFor school db, ∀ b ∈ eventRowsFor school db,
        a ≠ b → eventKey a ≠ eventKey b) ∧
    (∀ (db₁ db₂ : List MaterialRow) (school grade : Option String),
      db₁.Perm db₂ → (db₁.map MaterialRow.id).Nodup →
      listMaterials school grade db₁ = listMaterials school grade db₂) ∧
    (∀ (db : List MaterialRow) (school : String) (g : Option Int),
      List.Sorted materialLE (materialRowsFor school g db)) ∧
    (∀ (db : List MaterialRow) (school : String) (g : Option Int),
      (db.map MaterialRow.id).Nodup →
      ∀ a ∈ materialRowsFor school g db, ∀ b ∈ materialRowsFor school g db,
        a ≠ b → materialKey a ≠ materialKey b) := by
  refine ⟨?_, ?_, ?_, ?_, ?_, ?_⟩
  · intro db₁ db₂ school hp hnd
    have hrows := eventRowsFor_perm_eq db₁ db₂ (school.getD "") hp hnd
    unfold listEvents
    rw [hrows]
  · intro db school
    exact List.sorted_insertionSort eventLE _
  · intro db school hnd a ha b hb hne hk
    apply hne
    have ha2 : a ∈ db := by
      have := (List.perm_insertionSort eventLE _).mem_iff.mp ha
      exact (List.mem_filter.mp this).1
    have hb2 : b ∈ db := by
      have := (List.perm_insertionSort eventLE _).mem_iff.mp hb
      exact (List.mem_filter.mp this).1
    exact List.inj_on_of_nodup_map hnd ha2 hb2 (eventKey_eq_id hk)
  · intro db₁ db₂ school grade hp hnd
    have hrend : ∀ g, renderMaterials (school.getD "") g db₁
        = renderMaterials (school.getD "") g db₂ := by
      intro g
      unfold renderMaterials
      rw [materialRowsFor_perm_eq db₁ db₂ (school.getD "") g hp hnd]
    unfold listMaterials
    simp only [hrend]
  · intro db school g
    exact List.sorted_insertionSort materialLE _
  · intro db school g hnd a ha b hb hne hk
    apply hne
    have ha2 : a ∈ db := by
      have := (List.perm_insertionSort materialLE _).mem_iff.mp ha
      exact (List.mem_filter.mp this).1
    have hb2 : b ∈ db := by
      have := (List.perm_insertionSort materialLE _).mem_iff.mp hb
      exact (List.mem_filter.mp this).1
    exact List.inj_on_of_nodup_map hnd ha2 hb2 (materialKey_eq_id hk)

/-- Witness for C7: two insertion orders of the same two records produce the
identical list responses. -/
theorem list_order_deterministic_witness :
    listEvents (some "wlhs")
        [⟨1, "wlhs", "2024-01-15", "A", none, none, "", 0, 0⟩,
         ⟨2, "wlhs", "2024-01-15", "B", none, none, "", 0, 0⟩]
      = listEvents (some "wlhs")
        [⟨2, "wlhs", "2024-01-15", "B", none, none, "", 0, 0⟩,
         ⟨1, "wlhs", "2024-01-15", "A", none, none, "", 0, 0⟩] ∧
    listMaterials (some "wvhs") none
        [⟨1, "wvhs", "2024-01-15", 9, "A", "x", "", none, 0, 0⟩,
         ⟨2, "wvhs", "2024-01-15", 9, "B", "y", "", none, 0, 0⟩]
      = listMaterials (some "wvhs") none
        [⟨2, "wvhs", "2024-01-15", 9, "B", "y", "", none, 0, 0⟩,
         ⟨1, "wvhs", "2024-01-15", 9, "A", "x", "", none, 0, 0⟩] :=
  ⟨list_order_deterministic.1 _ _ (some "wlhs") (by decide) (by decide),
   list_order_deterministic.2.2.2.1 _ _ (some "wvhs") none (by decide) (by decide)⟩

/-- A parsed digit is below ten. -/
theorem digitNat_le {c : Char} {k : Nat} (h : digitNat c = some k) : k ≤ 9 := by
  unfold digitNat at h
  split at h
  · rename_i hc
    obtain rfl : c.toNat - 48 = k := by simpa using h
    omega
  · simp at h

/-- A parsed four-digit year is below ten thousand. -/
theorem parse4_le {a b c e : Char} {y : Nat} (h : parse4 a b c e = some y) :
    y ≤ 9999 := by
  unfold parse4 at h
  split at h
  · rename_i w x u z hw hx hu hz
    obtain rfl : ((w * 10 + x) * 10 + u) * 10 + z = y := by simpa using h
    have h1 := digitNat_le hw
    have h2 := digitNat_le hx
    have h3 := digitNat_le hu
    have h4 := digitNat_le hz
    omega
  · simp at h

/-- Parsing the digit character of a value below ten gives the value back. -/
theorem digitNat_digitChar (k : Nat) (hk : k ≤ 9) :
    digitNat (digitChar k) = some k := by
  interval_cases k <;> rfl

/-- Four-digit padding parses back to the padded value. -/
theorem parse4_pad4 (y : Nat) (hy : y ≤ 9999) :
    parse4 (digitChar (y / 1000 % 10)) (digitChar (y / 100 % 10))
      (digitChar (y / 10 % 10)) (digitChar (y % 10)) = some y := by
  have h1 := digitNat_digitChar (y / 1000 % 10) (by omega)
  have h2 := digitNat_digitChar (y / 100 % 10) (by omega)
  have h3 := digitNat_digitChar (y / 10 % 10) (by omega)
  have h4 := digitNat_digitChar (y % 10) (by omega)
  simp only [parse4, h1, h2, h3, h4]
  exact congrArg some (by omega)

/-- Two-digit padding parses back to the padded value. -/
theorem parse2_pad2 (m : Nat) (hm : m ≤ 99) :
    parse2 (digitChar (m / 10 % 10)) (digitChar (m % 10)) = some m := by
  have h1 := digitNat_digitChar (m / 10 % 10) (by omega)
  have h2 := digitNat_digitChar (m % 10) (by omega)
  simp only [parse2, h1, h2]
  exact congrArg some (by omega)

/-- No month is longer than 31 days. -/
theorem daysInMonth_le (y m : Nat) : daysInMonth y m ≤ 31 := by
  unfold daysInMonth
  split_ifs <;> omega

/-- Every month has at least one day. -/
theorem daysInMonth_pos (y m : Nat) : 1 ≤ daysInMonth y m := by
  unfold daysInMonth
  split_ifs <;> omega

/-- January the first is a valid date of every year. -/
theorem validYmd_jan1 (y : Nat) : validYmd y 1 1 = true := by
  simp [validYmd]
  exact daysInMonth_pos y 1

/-- Only valid calendar dates with four-digit years come out of the date
string parser. -/
theorem parseDateChars_valid {cs : List Char} {dd : Ymd}
    (h : parseDateChars cs = some dd) :
    validYmd dd.year dd.month dd.day = true ∧ dd.year ≤ 9999 := by
  unfold parseDateChars at h
  split at h
  · rename_i a b c e
    obtain ⟨y, hp, hf⟩ := Option.map_eq_some'.mp h
    obtain rfl : (⟨y, 1, 1⟩ : Ymd) = dd := hf
    exact ⟨validYmd_jan1 y, parse4_le hp⟩
  · rename_i a b c e m1 m2
    split at h
    · rename_i y m hp hm
      unfold ymdOf at h
      split at h
      · rename_i hv
        obtain rfl : (⟨y, m, 1⟩ : Ymd) = dd := by simpa using h
        exact ⟨hv, parse4_le hp⟩
      · simp at h
    · simp at h
  · rename_i a b c e m1 m2 e1 e2
    split at h
    · rename_i y m dy hp hm he
      unfold ymdOf at h
      split at h
      · rename_i hv
        obtain rfl : (⟨y, m, dy⟩ : Ymd) = dd := by simpa using h
        exact ⟨hv, parse4_le hp⟩
      · simp at h
    · simp at h
  · rename_i a b c e m1 m2 e1 e2 rest
    split at h
    · rename_i y m dy hp hm he
      split at h
      · unfold ymdOf at h
        split at h
        · rename_i hv
          obtain rfl : (⟨y, m, dy⟩ : Ymd) = dd := by simpa using h
          exact ⟨hv, parse4_le hp⟩
        · simp at h
      · simp at h
    · simp at h
  · simp at h

/-- The canonical serialization of a valid four-digit-year date parses back
to the same date. -/
theorem parseDateChars_canon (y m e : Nat) (hv : validYmd y m e = true)
    (hy : y ≤ 9999) :
    parseDateChars (canonYmd ⟨y, m, e⟩).data = some ⟨y, m, e⟩ := by
  have hb : 1 ≤ m ∧ m ≤ 12 ∧ 1 ≤ e ∧ e ≤ daysInMonth y m := by
    unfold validYmd at hv
    simp at hv
    omega
  have hm99 : m ≤ 99 := by omega
  have hdm := daysInMonth_le y m
  have he99 : e ≤ 99 := by omega
  show parseDateChars (pad4 y ++ '-' :: pad2 m ++ '-' :: pad2 e) = some ⟨y, m, e⟩
  unfold pad4 pad2
  simp only [List.cons_append, List.nil_append, parseDateChars,
    parse4_pad4 y hy, parse2_pad2 m hm99, parse2_pad2 e he99]
  simp [ymdOf, hv]

/-- No-drift identity of C5: formatting the canonical serialization of a
parsed date returns it unchanged. -/
theorem formatDate_canon {y m e : Nat} (hv : validYmd y m e = true)
    (hy : y ≤ 9999) :
    formatDate (.str (canonYmd ⟨y, m, e⟩)) = .ok (some (canonYmd ⟨y, m, e⟩)) := by
  have hne : (canonYmd ⟨y, m, e⟩) ≠ "" := by
    intro hc
    have hdata := congrArg String.data hc
    simp [canonYmd, pad4] at hdata
  have ht : (JsVal.str (canonYmd ⟨y, m, e⟩)).truthy = true := by
    simp [JsVal.truthy, hne]
  simp [formatDate, ht, parseDateChars_canon y m e hv hy]

/-- Serialization of an event row whose stored date formats to itself. -/
theorem toEventOut_of_canon {r : EventRow}
    (hf : formatDate (.str r.date) = .ok (some r.date)) :
    toEventOut r = .ok ⟨r.id, r.school, some r.date, r.title, r.department,
      r.time, r.description, r.created_at, r.updated_at⟩ := by
  unfold toEventOut
  rw [hf]

/-- C5: a date string accepted by the normalizer is stored as its canonical
serialization, and reading the store back through the list endpoint yields
that identical canonical YYYY-MM-DD string — no drift. -/
theorem date_roundtrip (s : String) (d : Ymd) (now newId : Nat)
    (db : List EventRow) (b : EventBody) (school : String)
    (hparse : parseDateChars s.data = some d)
    (hdate : b.date = .str s)
    (hschool : b.school = .str school)
    (hsv : school = "wlhs" ∨ school = "wvhs")
    (htitle : b.title.truthy = true)
    (hdb : ∀ r ∈ db, formatDate (.str r.date) = .ok (some r.date)) :
    ∃ row db2, postEvent now newId db b = (.ok 201 row, db2) ∧
      row.date = canonYmd d ∧
      formatDate (.str (canonYmd d)) = .ok (some (canonYmd d)) ∧
      ∃ outRows, listEvents (some school) db2 = .ok 200 outRows ∧
        ∃ o ∈ outRows, o.id = newId ∧ o.date = some (canonYmd d) := by
  obtain ⟨y, m, e⟩ := d
  obtain ⟨hv, hy⟩ := parseDateChars_valid hparse
  have hfc : formatDate (.str (canonYmd ⟨y, m, e⟩))
      = .ok (some (canonYmd ⟨y, m, e⟩)) := formatDate_canon hv hy
  have hsne : s ≠ "" := by
    intro hc
    rw [hc] at hparse
    have hnone : parseDateChars "".data = none := rfl
    rw [hnone] at hparse
    cases hparse
  have hts : (JsVal.str s).truthy = true := by simp [JsVal.truthy, hsne]
  have hdT : b.date.truthy = true := by rw [hdate]; exact hts
  have hschT : b.school.truthy = true := by
    rcases hsv with rfl | rfl <;> rw [hschool] <;> rfl
  have hschChk : (b.school == JsVal.str "wlhs" || b.school == JsVal.str "wvhs")
      = true := by
    rcases hsv with rfl | rfl <;> rw [hschool] <;> rfl
  have hfs : formatDate b.date = .ok (some (canonYmd ⟨y, m, e⟩)) := by
    rw [hdate]
    simp [formatDate, hts, hparse]
  obtain ⟨row, hpe, hrowdate, hrowschool, hrowid⟩ :
      ∃ row, postEvent now newId db b = (.ok 201 row, db ++ [row]) ∧
        row.date = canonYmd ⟨y, m, e⟩ ∧ row.school = b.school.toStr ∧
        row.id = newId :=
    ⟨⟨newId, b.school.toStr, canonYmd ⟨y, m, e⟩, b.title.toStr,
      jsOrNull b.department, jsOrNull b.time, jsOrEmpty b.description, now, now⟩,
     by simp [postEvent, hschT, hdT, htitle, hschChk, hfs], rfl, rfl, rfl⟩
  refine ⟨row, db ++ [row], hpe, hrowdate, hfc, ?_⟩
  have hrowfmt : formatDate (.str row.date) = .ok (some row.date) := by
    rw [hrowdate]; exact hfc
  have hall : ∀ r ∈ db ++ [row], formatDate (.str r.date) = .ok (some r.date) := by
    intro r hr
    rcases List.mem_append.mp hr with h1 | h2
    · exact hdb r h1
    · obtain rfl : r = row := by simpa using h2
      exact hrowfmt
  have htot : ∀ r ∈ eventRowsFor school (db ++ [row]), ∃ o, toEventOut r = .ok o := by
    intro r hr
    have hr2 : r ∈ db ++ [row] := by
      have := (List.perm_insertionSort eventLE _).mem_iff.mp hr
      exact (List.mem_filter.mp this).1
    exact ⟨_, toEventOut_of_canon (hall r hr2)⟩
  obtain ⟨outRows, hout⟩ := mapExcept_total toEventOut _ htot
  have hlist : listEvents (some school) (db ++ [row]) = .ok 200 outRows := by
    rcases hsv with rfl | rfl <;> simp [listEvents, hout] <;> rfl
  refine ⟨outRows, hlist, ?_⟩
  have hrmem : row ∈ eventRowsFor school (db ++ [row]) := by
    unfold eventRowsFor
    apply (List.perm_insertionSort eventLE _).mem_iff.mpr
    apply List.mem_filter.mpr
    refine ⟨List.mem_append.mpr (Or.inr (by simp)), ?_⟩
    rw [hrowschool, hschool]
    simp [JsVal.toStr]
  obtain ⟨o, ho, hoeq⟩ := (mapExcept_ok_mem toEventOut _ outRows hout).2 row hrmem
  rw [toEventOut_of_canon hrowfmt] at hoeq
  obtain rfl : (⟨row.id, row.school, some row.date, row.title, row.department,
      row.time, row.description, row.created_at, row.updated_at⟩ : EventOut) = o := by
    simpa using hoeq
  exact ⟨_, ho, hrowid, by rw [hrowdate]⟩

/-- Witness for C5 at a concrete accepted date string. -/
theorem date_roundtrip_witness :
    ∃ row db2, postEvent 0 1 []
        ⟨.str "wlhs", .str "2024-01-15", .str "Finals", .null, .null, .null⟩
      = (.ok 201 row, db2) ∧
      row.date = canonYmd ⟨2024, 1, 15⟩ ∧
      formatDate (.str (canonYmd ⟨2024, 1, 15⟩))
        = .ok (some (canonYmd ⟨2024, 1, 15⟩)) ∧
      ∃ outRows, listEvents (some "wlhs") db2 = .ok 200 outRows ∧
        ∃ o ∈ outRows, o.id = 1 ∧ o.date = some (canonYmd ⟨2024, 1, 15⟩) :=
  date_roundtrip "2024-01-15" ⟨2024, 1, 15⟩ 0 1 []
    ⟨.str "wlhs", .str "2024-01-15", .str "Finals", .null, .null, .null⟩
    "wlhs" rfl rfl rfl (Or.inl rfl) rfl (by simp)
